import Mathlib

/-!
Verification of the meeting-synopsis tool (src/app.py).

The program has two pure cores, embedded shallowly below:

* `extract_text_from_pdf` (app.py lines 65-118): per-page direct text
  extraction with an all-or-nothing recognition (OCR) fallback branch.
* the synopsis formatting loop (app.py lines 187-195): line-by-line
  classification of the generated synopsis into document blocks.

Python string methods are embedded as explicit functions over the
character list of a `String`, mirroring the Python semantics
(`str.strip`, `str.startswith`, slicing, `str.split`).
-/

/-- Python `s.strip()`: remove leading and trailing whitespace. -/
def pyStrip (s : String) : String :=
  String.mk (((s.data.dropWhile Char.isWhitespace).reverse.dropWhile Char.isWhitespace).reverse)

/-- Python `s.startswith(pre)`. -/
def pyStartsWith (s pre : String) : Bool :=
  pre.data.isPrefixOf s.data

/-- Python slicing `s[n:]`: drop the first `n` characters. -/
def pyDropChars (s : String) (n : Nat) : String :=
  String.mk (s.data.drop n)

/-- Python `s.split(sep)` for a one-character separator: split the
character sequence at every occurrence of `sep`, keeping empty pieces
(so the result always has one more piece than there are separators). -/
def pySplit (s : String) (sep : Char) : List String :=
  (s.data.splitOn sep).map String.mk

/-- Concatenation of a list of strings in order, no separator. -/
def concatList : List String → String
  | [] => ""
  | s :: rest => s ++ concatList rest

/-! ### Synopsis formatter (app.py lines 187-195)

The loop `for line in synopsis.split('\n'): ...` appends, per line, one
block to the output document: a level-2 heading, a level-1 heading, a
bulleted paragraph, or a plain paragraph. -/

/-- One classified unit of the structured output document. -/
inductive Block where
  | heading (level : Nat) (content : String)
  | bullet (content : String)
  | para (content : String)
deriving Repr, DecidableEq

/-- The body of the formatting loop for one line (app.py lines 188-195):
first-match-wins prefix classification. -/
def classifyLine (line : String) : Block :=
  if pyStartsWith line "## " then Block.heading 2 (pyStrip (pyDropChars line 3))
  else if pyStartsWith line "# " then Block.heading 1 (pyStrip (pyDropChars line 2))
  else if pyStartsWith line "- " then Block.bullet (pyStrip (pyDropChars line 2))
  else Block.para (pyStrip line)

/-- The whole formatting loop (app.py line 187): split the synopsis on
newlines and classify each line. -/
def format (synopsis : String) : List Block :=
  (pySplit synopsis '\n').map classifyLine

/-! ### Helper lemmas for the formatter -/

theorem splitOnP_length {α : Type} (p : α → Bool) (l : List α) :
    (l.splitOnP p).length = l.countP p + 1 := by
  induction l with
  | nil => simp [List.splitOnP_nil]
  | cons x xs ih =>
      rw [List.splitOnP_cons]
      by_cases h : p x
      · simp [h, ih, List.countP_cons]
      · simp [h, ih, List.countP_cons, List.length_modifyHead]

theorem pySplit_length (s : String) (sep : Char) :
    (pySplit s sep).length = s.data.count sep + 1 := by
  unfold pySplit
  rw [List.length_map]
  exact splitOnP_length (fun x => x == sep) s.data

theorem format_getElem? (synopsis : String) (i : Nat) :
    (format synopsis)[i]? = ((pySplit synopsis '\n')[i]?).map classifyLine := by
  unfold format
  rw [List.getElem?_map]

/-! ### Extraction pipeline (app.py lines 63-118)

`extract_text_from_pdf` receives the uploaded bytes, parses them with
`PyPDF2.PdfReader` (line 71, outside any `try`, so a parse failure
propagates to the caller), then walks the pages. Per page,
`page.extract_text()` runs inside a `try` (lines 80-89): an exception is
caught and recorded as a warning; a result that is non-empty and has
non-whitespace content is appended to the accumulator followed by a
newline and sets the `extracted_any_text` flag; anything else records a
warning. If the flag is still false after the loop, the function takes
the recognition (OCR) fallback branch (lines 92-117); that branch only
displays diagnostic messages and returns the empty string — the comments
in the source state that converting pages to images for recognition is
not implemented in this deployment.

A parsed page is modelled by what `page.extract_text()` does
(`Except.error` = raises) together with an oracle `ocrText` for what
optical recognition would yield on the rendered page image; the source
never consults the oracle. A document input is `Except.error e` when
`PyPDF2.PdfReader` raises `e`, and `Except.ok pages` otherwise. -/

deriving instance DecidableEq for Except

/-- One parsed page of the uploaded document. -/
structure Page where
  directText : Except String String
  ocrText : Except String String
deriving Repr, DecidableEq

/-- The mutable state of the extraction loop (app.py lines 69, 77):
the text accumulator, the `extracted_any_text` flag, and the warnings
issued so far via `st.warning`. -/
structure ExtractState where
  text : String
  extracted_any_text : Bool
  warnings : List String
deriving Repr, DecidableEq

/-- State before the loop: `text = ""`, `extracted_any_text = False`. -/
def initState : ExtractState :=
  { text := "", extracted_any_text := false, warnings := [] }

/-- Warning issued at app.py line 87 for a page with no direct text. -/
def noTextWarning (page_num : Nat) : String :=
  s!"No direct text extracted from page {page_num + 1}. Will try OCR for this page if no text is found in the entire document."

/-- Warning issued at app.py line 89 when `page.extract_text()` raises. -/
def errorWarning (page_num : Nat) (e : String) : String :=
  s!"Error during direct text extraction from page {page_num + 1}: {e}"

/-- One iteration of the loop at app.py lines 78-89. -/
def pageStep (page_num : Nat) (st : ExtractState) (page : Page) : ExtractState :=
  match page.directText with
  | Except.ok page_text =>
      if page_text ≠ "" ∧ pyStrip page_text ≠ "" then
        { st with text := st.text ++ page_text ++ "\n", extracted_any_text := true }
      else
        { st with warnings := st.warnings ++ [noTextWarning page_num] }
  | Except.error e =>
      { st with warnings := st.warnings ++ [errorWarning page_num e] }

/-- The loop `for page_num in range(num_pages)` at app.py lines 78-89. -/
def extractLoop (page_num : Nat) (st : ExtractState) : List Page → ExtractState
  | [] => st
  | page :: rest => extractLoop (page_num + 1) (pageStep page_num st page) rest

/-- The fallback branch at app.py lines 92-117: it displays diagnostic
messages and returns the empty string (line 113); page rendering and
recognition are not performed. -/
def ocrFallback (_pages : List Page) : String := ""

/-- `extract_text_from_pdf` (app.py lines 65-118). `Except.error` on the
input models `PyPDF2.PdfReader` raising at line 71, which no handler in
the function catches. -/
def extract_text_from_pdf (doc : Except String (List Page)) : Except String String :=
  match doc with
  | Except.error e => Except.error e
  | Except.ok pages =>
      let st := extractLoop 0 initState pages
      if st.extracted_any_text = false then Except.ok (ocrFallback pages)
      else Except.ok st.text

/-- The text a page adds to the accumulator on the direct path:
`page_text + "\n"` when usable, nothing otherwise. -/
def directContribution (page : Page) : String :=
  match page.directText with
  | Except.ok page_text =>
      if page_text ≠ "" ∧ pyStrip page_text ≠ "" then page_text ++ "\n" else ""
  | Except.error _ => ""

/-- Page-order concatenation of the direct per-page contributions. -/
def direct_concat (pages : List Page) : String :=
  concatList (pages.map directContribution)

/-- A page contributes direct text. -/
def ContributesDirect (page : Page) : Prop :=
  directContribution page ≠ ""

instance (page : Page) : Decidable (ContributesDirect page) :=
  inferInstanceAs (Decidable (directContribution page ≠ ""))

/-- What one page yields under optical recognition in the spec's
description of the fallback (spec section 4.1 step 3): a per-page
recognition failure contributes no text. Used only to compare the
spec's description of the fallback with the source's behaviour. -/
def ocrContribution (page : Page) : String :=
  match page.ocrText with
  | Except.ok s => s
  | Except.error _ => ""

/-- Page-order concatenation of recognized text, as the spec's words
describe the fallback result (spec section 4.1 step 3). -/
def ocr_concat_spec (pages : List Page) : String :=
  concatList (pages.map ocrContribution)

/-- A concrete page whose direct extraction yields usable text. -/
def textPage : Page :=
  { directText := Except.ok "Hello World", ocrText := Except.ok "" }

/-- A concrete scanned page: direct extraction yields the empty string,
while optical recognition would yield text. -/
def scannedPage : Page :=
  { directText := Except.ok "", ocrText := Except.ok "recognized words" }

/-! ### String helper lemmas -/

theorem string_append_assoc (a b c : String) : a ++ b ++ c = a ++ (b ++ c) := by
  apply String.ext
  simp [String.data_append]

theorem string_append_eq_empty (s t : String) : s ++ t = "" ↔ s = "" ∧ t = "" := by
  constructor
  · intro h
    have hd : s.data ++ t.data = [] := by
      have := congrArg String.data h
      rwa [String.data_append] at this
    have hp := List.append_eq_nil.mp hd
    exact ⟨String.ext (by rw [hp.1]), String.ext (by rw [hp.2])⟩
  · rintro ⟨rfl, rfl⟩
    rfl

theorem append_newline_ne (s : String) : s ++ "\n" ≠ "" := by
  intro h
  exact absurd ((string_append_eq_empty s "\n").mp h).2 (by decide)

theorem concatList_cons (x : String) (xs : List String) :
    concatList (x :: xs) = x ++ concatList xs := rfl

theorem concatList_ne_empty : ∀ l : List String, (∃ x ∈ l, x ≠ "") → concatList l ≠ "" := by
  intro l
  induction l with
  | nil => intro h; simp at h
  | cons x xs ih =>
      intro h hc
      have hp := (string_append_eq_empty x (concatList xs)).mp hc
      rcases h with ⟨y, hy, hne⟩
      rcases List.mem_cons.mp hy with rfl | hmem
      · exact hne hp.1
      · exact ih ⟨y, hmem, hne⟩ hp.2

theorem concatList_newline : ∀ l : List String,
    (∀ x ∈ l, x = "" ∨ ∃ u, x = u ++ "\n") →
    concatList l = "" ∨ ∃ u, concatList l = u ++ "\n" := by
  intro l
  induction l with
  | nil => intro _; left; rfl
  | cons x xs ih =>
      intro h
      have hx := h x (List.mem_cons_self x xs)
      have hxs := ih fun y hy => h y (List.mem_cons_of_mem x hy)
      rw [concatList_cons]
      rcases hxs with h0 | ⟨u, hu⟩
      · rw [h0, String.append_empty]
        exact hx
      · right
        refine ⟨x ++ u, ?_⟩
        rw [string_append_assoc, ← hu]

/-! ### Lemmas about the extraction loop -/

theorem pageStep_text (pn : Nat) (st : ExtractState) (page : Page) :
    (pageStep pn st page).text = st.text ++ directContribution page := by
  obtain ⟨d, o⟩ := page
  cases d with
  | ok s =>
      by_cases hc : s ≠ "" ∧ pyStrip s ≠ ""
      · simp [pageStep, directContribution, hc, string_append_assoc]
      · simp [pageStep, directContribution, hc, String.append_empty]
  | error e => simp [pageStep, directContribution, String.append_empty]

theorem pageStep_flag (pn : Nat) (st : ExtractState) (page : Page) :
    ((pageStep pn st page).extracted_any_text = true ↔
      st.extracted_any_text = true ∨ ContributesDirect page) := by
  obtain ⟨d, o⟩ := page
  cases d with
  | ok s =>
      by_cases hc : s ≠ "" ∧ pyStrip s ≠ ""
      · simp [pageStep, ContributesDirect, directContribution, hc, append_newline_ne]
      · simp [pageStep, ContributesDirect, directContribution, hc]
  | error e => simp [pageStep, ContributesDirect, directContribution]

theorem pageStep_warnings (pn : Nat) (st : ExtractState) (page : Page) :
    (pageStep pn st page).warnings.length =
      st.warnings.length + (if ContributesDirect page then 0 else 1) := by
  obtain ⟨d, o⟩ := page
  cases d with
  | ok s =>
      by_cases hc : s ≠ "" ∧ pyStrip s ≠ ""
      · simp [pageStep, ContributesDirect, directContribution, hc, append_newline_ne]
      · simp [pageStep, ContributesDirect, directContribution, hc]
  | error e => simp [pageStep, ContributesDirect, directContribution]

theorem direct_concat_cons (page : Page) (rest : List Page) :
    direct_concat (page :: rest) = directContribution page ++ direct_concat rest := rfl

theorem extractLoop_text (pages : List Page) : ∀ (pn : Nat) (st : ExtractState),
    (extractLoop pn st pages).text = st.text ++ direct_concat pages := by
  induction pages with
  | nil =>
      intro pn st
      simp [extractLoop, direct_concat, concatList, String.append_empty]
  | cons page rest ih =>
      intro pn st
      simp only [extractLoop]
      rw [ih, pageStep_text, direct_concat_cons, string_append_assoc]

theorem extractLoop_flag (pages : List Page) : ∀ (pn : Nat) (st : ExtractState),
    ((extractLoop pn st pages).extracted_any_text = true ↔
      st.extracted_any_text = true ∨ ∃ p ∈ pages, ContributesDirect p) := by
  induction pages with
  | nil => intro pn st; simp [extractLoop]
  | cons page rest ih =>
      intro pn st
      simp only [extractLoop]
      rw [ih, pageStep_flag]
      simp [or_assoc]

theorem extractLoop_warnings (pages : List Page) : ∀ (pn : Nat) (st : ExtractState),
    (extractLoop pn st pages).warnings.length =
      st.warnings.length + pages.countP (fun p => decide (¬ ContributesDirect p)) := by
  induction pages with
  | nil => intro pn st; simp [extractLoop]
  | cons page rest ih =>
      intro pn st
      simp only [extractLoop]
      rw [ih, pageStep_warnings]
      by_cases hc : ContributesDirect page
      · simp [List.countP_cons, hc]
      · simp [List.countP_cons, hc]
        omega

theorem direct_concat_filter (pages : List Page) :
    concatList ((pages.filter fun p => decide (ContributesDirect p)).map directContribution)
      = direct_concat pages := by
  induction pages with
  | nil => rfl
  | cons page rest ih =>
      by_cases hc : ContributesDirect page
      · simp [List.filter_cons, hc, direct_concat_cons, concatList_cons, ih]
      · have hz : directContribution page = "" := by
          by_contra hzz
          exact hc hzz
        simp [List.filter_cons, hc, direct_concat_cons, ih, hz, String.empty_append]

/-! ### The two branches of `extract_text_from_pdf` -/

theorem extract_flag_false_result (pages : List Page)
    (hflag : (extractLoop 0 initState pages).extracted_any_text = false) :
    extract_text_from_pdf (Except.ok pages) = Except.ok "" := by
  show (if (extractLoop 0 initState pages).extracted_any_text = false
      then Except.ok (ocrFallback pages)
      else Except.ok (extractLoop 0 initState pages).text) = Except.ok ""
  rw [hflag]
  simp [ocrFallback]

theorem extract_flag_true_result (pages : List Page)
    (hflag : (extractLoop 0 initState pages).extracted_any_text = true) :
    extract_text_from_pdf (Except.ok pages) = Except.ok (direct_concat pages) := by
  show (if (extractLoop 0 initState pages).extracted_any_text = false
      then Except.ok (ocrFallback pages)
      else Except.ok (extractLoop 0 initState pages).text) = Except.ok (direct_concat pages)
  rw [hflag, if_neg (by decide), extractLoop_text pages 0 initState,
    show initState.text = "" from rfl, String.empty_append]

theorem flag_false_iff (pages : List Page) :
    ((extractLoop 0 initState pages).extracted_any_text = false ↔
      ∀ p ∈ pages, ¬ ContributesDirect p) := by
  constructor
  · intro hb p hp hcp
    have ht := (extractLoop_flag pages 0 initState).mpr (Or.inr ⟨p, hp, hcp⟩)
    rw [hb] at ht
    cases ht
  · intro h
    cases hb : (extractLoop 0 initState pages).extracted_any_text
    · rfl
    · rcases (extractLoop_flag pages 0 initState).mp hb with h0 | ⟨p, hp, hcp⟩
      · simp [initState] at h0
      · exact absurd hcp (h p hp)

theorem direct_concat_ne_of_contrib (pages : List Page)
    (h : ∃ p ∈ pages, ContributesDirect p) : direct_concat pages ≠ "" := by
  rcases h with ⟨p, hp, hcp⟩
  exact concatList_ne_empty (pages.map directContribution)
    ⟨directContribution p, List.mem_map_of_mem directContribution hp, hcp⟩

theorem directContribution_empty_or_newline (page : Page) :
    directContribution page = "" ∨ ∃ u, directContribution page = u ++ "\n" := by
  obtain ⟨d, o⟩ := page
  cases d with
  | ok s =>
      by_cases hc : s ≠ "" ∧ pyStrip s ≠ ""
      · right
        exact ⟨s, by simp [directContribution, hc]⟩
      · left
        simp [directContribution, hc]
  | error e => left; rfl

/-! ### Claims -/

/-- C1: for every parsed document with at least one page whose direct
extraction yields non-whitespace text, `extract_text_from_pdf` returns
the order-preserving page-order concatenation of each such page's direct
text, each fragment followed by a newline, pages without direct text
contributing nothing; the result is non-empty and the recognition
fallback branch is not taken (the `extracted_any_text` flag guarding it
is true). -/
theorem extract_direct_concat (pages : List Page)
    (h : ∃ p ∈ pages, ContributesDirect p) :
    extract_text_from_pdf (Except.ok pages) = Except.ok (direct_concat pages)
    ∧ direct_concat pages ≠ ""
    ∧ (extractLoop 0 initState pages).extracted_any_text = true := by
  have hflag : (extractLoop 0 initState pages).extracted_any_text = true :=
    (extractLoop_flag pages 0 initState).mpr (Or.inr h)
  exact ⟨extract_flag_true_result pages hflag, direct_concat_ne_of_contrib pages h, hflag⟩

/-- Witness for C1: a one-page document whose page has direct text. -/
theorem extract_direct_concat_witness :
    extract_text_from_pdf (Except.ok [textPage]) = Except.ok (direct_concat [textPage])
    ∧ direct_concat [textPage] ≠ ""
    ∧ (extractLoop 0 initState [textPage]).extracted_any_text = true :=
  extract_direct_concat [textPage] (by decide)

/-- C2 counterexample: a one-page document where direct extraction yields
nothing but recognition would yield "recognized words". The claim says
the fallback runs recognition and returns its page-order concatenation;
the code returns the empty string instead. -/
theorem extract_fallback_counterexample :
    (∀ p ∈ [scannedPage], ¬ ContributesDirect p)
    ∧ extract_text_from_pdf (Except.ok [scannedPage]) = Except.ok ""
    ∧ ocr_concat_spec [scannedPage] = "recognized words"
    ∧ Except.ok "" ≠ (Except.ok (ocr_concat_spec [scannedPage]) : Except String String) := by
  decide

/-- C2 as amended: for every parsed document where direct extraction
yields nothing (empty or whitespace-only, or an exception) on every
page, `extract_text_from_pdf` takes the fallback branch, but that branch
performs no page rendering and no recognition — it is an unimplemented
placeholder that records diagnostics — and the function returns empty
text. -/
theorem extract_fallback_returns_empty (pages : List Page)
    (h : ∀ p ∈ pages, ¬ ContributesDirect p) :
    extract_text_from_pdf (Except.ok pages) = Except.ok ""
    ∧ ocrFallback pages = "" := by
  exact ⟨extract_flag_false_result pages ((flag_false_iff pages).mpr h), rfl⟩

/-- Witness for C2's amended claim: the all-scanned one-page document. -/
theorem extract_fallback_returns_empty_witness :
    extract_text_from_pdf (Except.ok [scannedPage]) = Except.ok ""
    ∧ ocrFallback [scannedPage] = "" :=
  extract_fallback_returns_empty [scannedPage] (by decide)

/-- C3 counterexample: a document whose parsing raises (`PyPDF2.PdfReader`
at app.py line 71 runs outside every `try` block in the function): the
exception escapes `extract_text_from_pdf` to its caller instead of being
surfaced as an empty result. -/
theorem extract_parse_error_counterexample :
    extract_text_from_pdf (Except.error "EOF marker not found")
      = Except.error "EOF marker not found"
    ∧ extract_text_from_pdf (Except.error "EOF marker not found") ≠ Except.ok "" := by
  decide

/-- C3 as amended: for every document that parses into a page list, no
exception escapes `extract_text_from_pdf`: it always returns a result;
every per-page direct-extraction failure degrades to that page
contributing no text plus exactly one recorded diagnostic warning; and
only total failure — no page produced direct text — is surfaced to the
caller, as an empty result. A document whose parsing raises propagates
that exception to the caller. -/
theorem extract_no_escape_parsed (pages : List Page) :
    (∃ t, extract_text_from_pdf (Except.ok pages) = Except.ok t)
    ∧ (extract_text_from_pdf (Except.ok pages) = Except.ok "" ↔
        ∀ p ∈ pages, ¬ ContributesDirect p)
    ∧ (extractLoop 0 initState pages).warnings.length
        = pages.countP (fun p => decide (¬ ContributesDirect p))
    ∧ (∀ e, extract_text_from_pdf (Except.error e) = Except.error e) := by
  refine ⟨?_, ⟨?_, ?_⟩, ?_, fun e => rfl⟩
  · cases hb : (extractLoop 0 initState pages).extracted_any_text
    · exact ⟨"", extract_flag_false_result pages hb⟩
    · exact ⟨direct_concat pages, extract_flag_true_result pages hb⟩
  · intro h0
    cases hb : (extractLoop 0 initState pages).extracted_any_text
    · exact (flag_false_iff pages).mp hb
    · exfalso
      rw [extract_flag_true_result pages hb] at h0
      injection h0 with h1
      rcases (extractLoop_flag pages 0 initState).mp hb with hi | hex
      · simp [initState] at hi
      · exact direct_concat_ne_of_contrib pages hex h1
  · intro h
    exact extract_flag_false_result pages ((flag_false_iff pages).mpr h)
  · rw [extractLoop_warnings pages 0 initState]
    simp [initState]

/-- C6: for a parsed document with zero pages, `extract_text_from_pdf`
returns empty text (and in particular does not raise). -/
theorem extract_zero_pages :
    extract_text_from_pdf (Except.ok ([] : List Page)) = Except.ok "" := by
  decide

/-- C7: the recognition fallback branch is triggered (its guard
`extracted_any_text` is still false after the loop) if and only if no
page produced direct text; and whenever at least one page yields direct
text, the result is exactly the concatenation over the contributing
pages — the pages that yielded no direct text are omitted, never
recognized. -/
theorem fallback_trigger_iff (pages : List Page) :
    ((extractLoop 0 initState pages).extracted_any_text = false ↔
      ∀ p ∈ pages, ¬ ContributesDirect p)
    ∧ ((∃ p ∈ pages, ContributesDirect p) →
        extract_text_from_pdf (Except.ok pages)
          = Except.ok (concatList
              ((pages.filter fun p => decide (ContributesDirect p)).map directContribution))) := by
  refine ⟨flag_false_iff pages, fun h => ?_⟩
  rw [direct_concat_filter]
  exact extract_flag_true_result pages ((extractLoop_flag pages 0 initState).mpr (Or.inr h))

/-- Witness for C7: a document whose first page has direct text and whose
second page does not; the second page is omitted from the result. -/
theorem fallback_trigger_iff_witness :
    extract_text_from_pdf (Except.ok [textPage, scannedPage])
      = Except.ok (concatList
          (([textPage, scannedPage].filter fun p => decide (ContributesDirect p)).map
            directContribution)) :=
  (fallback_trigger_iff [textPage, scannedPage]).2 (by decide)

/-- C9: every non-empty result of `extract_text_from_pdf` on a parsed
document ends with a newline character, because each contributing page
fragment is appended together with a trailing newline. -/
theorem extract_newline_terminated (pages : List Page) (t : String)
    (h : extract_text_from_pdf (Except.ok pages) = Except.ok t) (hne : t ≠ "") :
    ∃ u, t = u ++ "\n" := by
  cases hb : (extractLoop 0 initState pages).extracted_any_text
  · rw [extract_flag_false_result pages hb] at h
    injection h with h1
    exact absurd h1.symm hne
  · rw [extract_flag_true_result pages hb] at h
    injection h with h1
    have hall : ∀ x ∈ pages.map directContribution, x = "" ∨ ∃ u, x = u ++ "\n" := by
      intro x hx
      rcases List.mem_map.mp hx with ⟨p, _, rfl⟩
      exact directContribution_empty_or_newline p
    rcases concatList_newline (pages.map directContribution) hall with h0 | ⟨u, hu⟩
    · rw [← h1] at hne
      exact absurd h0 hne
    · exact ⟨u, by rw [← h1]; exact hu⟩

/-- Witness for C9: the one-page document with direct text "Hello World"
produces "Hello World\n", which ends in a newline. -/
theorem extract_newline_terminated_witness :
    extract_text_from_pdf (Except.ok [textPage]) = Except.ok "Hello World\n"
    ∧ ("Hello World\n" : String) ≠ ""
    ∧ ∃ u, ("Hello World\n" : String) = u ++ "\n" :=
  ⟨by decide, by decide,
    extract_newline_terminated [textPage] "Hello World\n" (by decide) (by decide)⟩

/-- C4 counterexample: Python `"".split('\n')` is `[""]`, so the
formatting loop runs once on the empty synopsis and emits one empty
plain paragraph — not the empty block sequence the claim states. -/
theorem format_empty_counterexample :
    format "" = [Block.para ""] ∧ format "" ≠ ([] : List Block) := by
  decide

/-- C4 as amended: `format` applied to empty synopsis text produces a
block sequence of exactly one block, an empty plain paragraph. -/
theorem format_empty_single_block :
    format "" = [Block.para ""] ∧ (format "").length = 1 := by
  decide

/-- C5: `format` splits its input into lines and maps each line to
exactly one block by a first-match-wins prefix rule: "## " gives a
level-2 heading of the trimmed remainder, otherwise "# " a level-1
heading, otherwise "- " a bulleted paragraph, and any other line a plain
paragraph of the trimmed line; a blank line becomes an empty plain
paragraph. -/
theorem format_prefix_rule (synopsis line : String) :
    format synopsis = (pySplit synopsis '\n').map classifyLine
    ∧ (pyStartsWith line "## " = true →
        classifyLine line = Block.heading 2 (pyStrip (pyDropChars line 3)))
    ∧ (pyStartsWith line "## " = false → pyStartsWith line "# " = true →
        classifyLine line = Block.heading 1 (pyStrip (pyDropChars line 2)))
    ∧ (pyStartsWith line "## " = false → pyStartsWith line "# " = false →
        pyStartsWith line "- " = true →
        classifyLine line = Block.bullet (pyStrip (pyDropChars line 2)))
    ∧ (pyStartsWith line "## " = false → pyStartsWith line "# " = false →
        pyStartsWith line "- " = false →
        classifyLine line = Block.para (pyStrip line))
    ∧ classifyLine "" = Block.para "" := by
  refine ⟨rfl, ?_, ?_, ?_, ?_, by decide⟩
  · intro h1
    simp [classifyLine, h1]
  · intro h1 h2
    simp [classifyLine, h1, h2]
  · intro h1 h2 h3
    simp [classifyLine, h1, h2, h3]
  · intro h1 h2 h3
    simp [classifyLine, h1, h2, h3]

/-- Witness for C5: the scenario line "## Summary" becomes a level-2
heading with content "Summary". -/
theorem format_prefix_rule_witness :
    classifyLine "## Summary" = Block.heading 2 "Summary" :=
  ((format_prefix_rule "## Summary" "## Summary").2.1 (by decide)).trans (by decide)

/-- C8: `format`'s line classification is line-local and deterministic —
two positions of the line list that hold the same line are mapped to
blocks of the same type and content, independent of surrounding lines or
prior state. -/
theorem format_line_local (synopsis : String) (i j : Nat)
    (h : (pySplit synopsis '\n')[i]? = (pySplit synopsis '\n')[j]?) :
    (format synopsis)[i]? = (format synopsis)[j]? := by
  rw [format_getElem?, format_getElem?, h]

/-- Witness for C8: an input containing the line "- x" twice yields the
same block at both positions. -/
theorem format_line_local_witness :
    (pySplit "- x\n- x" '\n')[0]? = (pySplit "- x\n- x" '\n')[1]?
    ∧ (format "- x\n- x")[0]? = (format "- x\n- x")[1]? :=
  ⟨by decide, format_line_local "- x\n- x" 0 1 (by decide)⟩

/-- C10: `format` produces exactly one block per line — the number of
output blocks is the number of newline characters in the input plus one;
in particular the output is never empty, even for empty input. -/
theorem format_block_count (synopsis : String) :
    (format synopsis).length = synopsis.data.count '\n' + 1
    ∧ format synopsis ≠ [] := by
  have hl : (format synopsis).length = synopsis.data.count '\n' + 1 := by
    unfold format
    rw [List.length_map]
    exact pySplit_length synopsis '\n'
  refine ⟨hl, fun hc => ?_⟩
  rw [hc] at hl
  simp at hl
